import Mathlib

/-
Verification of the kubectl-walk document-tree addressing-and-flattening
engine (path grammar, navigation, depth/prune-aware flattener, path
formatter) against its specification.

The engine's code lives in the repository's Go sources; the definitions
below are a shallow embedding of those functions:
  * `Node`           — the yaml.Node tree shape the engine traverses
                       (Scalar / Sequence / Mapping, plus the Document
                       wrapper produced by yaml.Unmarshal).  Mapping
                       content, which the Go side stores as alternating
                       key/value child nodes with scalar keys, is embedded
                       as a list of (key, value) pairs.
  * `autoGenerated`  — the fixed prune-key set (a Go map[string]bool,
                       where a missing key looks up as false).
  * `walk`           — the recursive flattener; the Go version writes
                       lines to an io.Writer and reads the `pure` flag and
                       depth from globals, embedded here as an emitted
                       list of lines and explicit parameters.
  * `getMapValue`, `findNodeByPath` — mapping lookup and dotted/bracketed
                       path navigation.  Go string operations (Split,
                       Index, slicing, Atoi) are embedded character-wise;
                       on the ASCII path strings the engine handles, Go's
                       byte indexing and character indexing coincide.
                       A Go runtime panic (out-of-bounds slice or index)
                       is modelled as the distinguished error `goPanic`.
  * `runMain`        — the navigation/flatten dispatch of func main for
                       an already-decoded document (the cluster branch):
                       the empty entry skips navigation, a non-empty one
                       is resolved by findNodeByPath applied to the
                       document wrapper node, and walk is seeded with the
                       dot-split entry as its starting path prefix.
-/

namespace KubectlWalk

/-- The decoded document tree, mirroring gopkg.in/yaml.v3 yaml.Node:
scalar leaves carry their textual value; sequences and mappings carry
ordered content; `document` is the wrapper node that yaml.Unmarshal
produces around the root mapping. -/
inductive Node where
  | scalar (value : String)
  | sequence (items : List Node)
  | mapping (entries : List (String × Node))
  | document (content : List Node)

/-- The fixed set of auto-generated keys stripped by the --pure flag
(Go: `var autoGenerated = map[string]bool{...}`; lookup of an absent key
yields false). -/
def autoGenerated (key : String) : Bool :=
  key == "creationTimestamp" || key == "resourceVersion" ||
  key == "generation" || key == "uid" || key == "managedFields" ||
  key == "selfLink" || key == "status"

/-- Go `strings.Join(path, ".")`. -/
def renderPath : List String → String
  | [] => ""
  | [t] => t
  | t :: rest => t ++ "." ++ renderPath rest

/-- The display token the flattener appends for sequence element `i`
(Go: `fmt.Sprintf("\b[%d]", i)` — a backspace character followed by the
bracketed index). -/
def idxToken (i : Nat) : String := "\x08[" ++ Nat.repr i ++ "]"

mutual

/-- The recursive flattener (Go `func walk(node, path, out, remain)`).
`pure` is the strip-auto-generated flag (a Go global read inside the
loop); `remain` is the remaining-depth counter (`int`, started from the
--depth flag whose default is -1; a negative counter never reaches the
`remain == 0` stop test, so it means unlimited depth).  The emitted
lines are returned as a list. -/
def walk (node : Node) (path : List String) (pure : Bool) (remain : Int) :
    List String :=
  match node with
  | .mapping entries =>
    if remain == 0 then
      [renderPath path ++ ": <object>"]
    else
      walkEntries entries path pure (if remain > 0 then remain - 1 else remain)
  | .sequence items =>
    if remain == 0 then
      [renderPath path ++ ": <array>"]
    else
      walkItems items 0 path pure (if remain > 0 then remain - 1 else remain)
  | .scalar value => [renderPath path ++ ": " ++ value]
  | .document _ => [renderPath path ++ ": "]

/-- The mapping loop of `walk`: entries in document order, skipping an
entry entirely when `pure` is set and its key is auto-generated. -/
def walkEntries (entries : List (String × Node)) (path : List String)
    (pure : Bool) (remain : Int) : List String :=
  match entries with
  | [] => []
  | (key, value) :: rest =>
    (if pure && autoGenerated key then []
     else walk value (path ++ [key]) pure remain)
      ++ walkEntries rest path pure remain

/-- The sequence loop of `walk`: items in index order, each with the
backspace-bracket index token appended to the path. -/
def walkItems (items : List Node) (i : Nat) (path : List String)
    (pure : Bool) (remain : Int) : List String :=
  match items with
  | [] => []
  | item :: rest =>
    walk item (path ++ [idxToken i]) pure remain
      ++ walkItems rest (i + 1) path pure remain

end

/-- Go `getMapValue`: value of the first entry with the given key, nil
for a non-mapping node or an absent key. -/
def getMapValue (node : Node) (key : String) : Option Node :=
  match node with
  | .mapping entries => (entries.find? (fun e => e.1 == key)).map (fun e => e.2)
  | _ => none

/-- The error outcomes of `findNodeByPath`: the three `fmt.Errorf`
results, plus `goPanic` modelling a Go runtime panic (out-of-bounds
slice or index), which aborts the process rather than being returned. -/
inductive NavError where
  | keyNotFound (name : String)
  | indexOutOfRange (index : Int) (name : String)
  | invalidFormat (entrypoint : String)
  | goPanic
deriving DecidableEq

/-- Textual rendering of an Int as Go's %d verb produces it. -/
def intRepr (i : Int) : String :=
  if i < 0 then "-" ++ Nat.repr (-i).toNat else Nat.repr i.toNat

/-- The message text of each `fmt.Errorf` in `findNodeByPath`. -/
def errMsg : NavError → String
  | .keyNotFound name => "key " ++ name ++ " not found"
  | .indexOutOfRange index name =>
    "index [" ++ intRepr index ++ "] out of range for " ++ name
  | .invalidFormat entrypoint => "invalid format: " ++ entrypoint
  | .goPanic => "runtime error: index out of range"

/-- Go `strings.Split(s, sep)` for a one-character separator: the empty
string splits to [""], and adjacent separators yield empty fields. -/
def goSplit (s : String) (sep : Char) : List String :=
  (s.toList.foldr
    (fun c acc =>
      match acc with
      | cur :: rest => if c == sep then [] :: (cur :: rest) else (c :: cur) :: rest
      | [] => [[c]])
    [[]]).map (fun l => ⟨l⟩)

/-- Go `strings.Index(s, c)` for a one-character pattern: position of the
first occurrence, -1 when absent. -/
def goIndexChar (s : String) (c : Char) : Int :=
  match s.toList.findIdx? (fun x => x == c) with
  | some i => (i : Int)
  | none => -1

/-- Go slice expression `s[lo:hi]`: none models the runtime panic raised
when the bounds are not 0 ≤ lo ≤ hi ≤ len(s). -/
def goSlice (s : String) (lo hi : Int) : Option String :=
  if 0 ≤ lo ∧ lo ≤ hi ∧ hi ≤ (s.toList.length : Int) then
    some ⟨(s.toList.drop lo.toNat).take (hi - lo).toNat⟩
  else none

/-- Numeric value of a digit string. -/
def digitsVal (cs : List Char) : Nat :=
  cs.foldl (fun n c => n * 10 + (c.toNat - Char.toNat '0')) 0

/-- Go `strconv.Atoi`: none models the error return (whose accompanying
value is 0; the caller in `findNodeByPath` discards the error, so the
index silently becomes 0 on non-numeric input). -/
def goAtoi (s : String) : Option Int :=
  match s.toList with
  | [] => none
  | '-' :: rest =>
    if rest ≠ [] ∧ rest.all Char.isDigit then some (-(digitsVal rest : Int))
    else none
  | '+' :: rest =>
    if rest ≠ [] ∧ rest.all Char.isDigit then some ((digitsVal rest : Int))
    else none
  | cs =>
    if cs.all Char.isDigit then some ((digitsVal cs : Int)) else none

/-- Go indexing expression `items[index]`: none models the runtime panic
on a negative index (the in-range upper bound is checked by the caller). -/
def goElem (items : List Node) (index : Int) : Option Node :=
  if index < 0 then none else items.get? index.toNat

/-- One iteration of the `findNodeByPath` loop body on the textual
segment `part`.  A part containing '[' is split into the name before the
bracket and the index text between '[' and ']' by Go slicing (which
panics when ']' is missing or precedes '['); the index text goes through
Atoi with its error discarded.  The Go test
`child.Kind != SequenceNode || index >= len(child.Content)` produces the
index-out-of-range error for a non-sequence child as well. -/
def stepPart (entrypoint : String) (current : Node) (part : String) :
    Except NavError Node :=
  if part.toList.contains '[' then
    match goSlice part 0 (goIndexChar part '['),
          goSlice part (goIndexChar part '[' + 1) (goIndexChar part ']') with
    | some name, some indexString =>
      let index := (goAtoi indexString).getD 0
      match getMapValue current name with
      | none => .error (.keyNotFound name)
      | some child =>
        match child with
        | .sequence items =>
          if (items.length : Int) ≤ index then
            .error (.indexOutOfRange index name)
          else
            match goElem items index with
            | some next => .ok next
            | none => .error .goPanic
        | _ => .error (.indexOutOfRange index name)
    | _, _ => .error .goPanic
  else
    match getMapValue current part with
    | none => .error (.invalidFormat entrypoint)
    | some next => .ok next

/-- The `findNodeByPath` loop over the dot-split parts, failing fast. -/
def resolveParts (entrypoint : String) (current : Node) :
    List String → Except NavError Node
  | [] => .ok current
  | part :: rest =>
    match stepPart entrypoint current part with
    | .error e => .error e
    | .ok next => resolveParts entrypoint next rest

/-- Go `findNodeByPath(node, entrypoint)`: split the entrypoint on '.'
and walk the parts from `node`. -/
def findNodeByPath (node : Node) (entrypoint : String) :
    Except NavError Node :=
  resolveParts entrypoint node (goSplit entrypoint '.')

/-- The entry-path prefix computed by func main: empty for an empty
--entry flag, otherwise the dot-split of the flag. -/
def entrySegments (entry : String) : List String :=
  if entry == "" then [] else goSplit entry '.'

/-- The navigation/flatten dispatch of func main on an already-decoded
document whose wrapper node has content `docContent`
(`rootNode := yamlRoot.Content[0]`, panicking on an empty document).
With an empty entry the root is flattened directly; otherwise
`findNodeByPath` is applied to the document wrapper node itself
(`findNodeByPath(&yamlRoot, entry)`), an error is reported without
flattening, and on success `walk` starts from the resolved node with the
dot-split entry as its path prefix. -/
def runMain (docContent : List Node) (entry : String) (pure : Bool)
    (depth : Int) : Except NavError (List String) :=
  match docContent.head? with
  | none => .error .goPanic
  | some rootNode =>
    if entry == "" then .ok (walk rootNode (entrySegments entry) pure depth)
    else
      match findNodeByPath (.document docContent) entry with
      | .error e => .error e
      | .ok found => .ok (walk found (entrySegments entry) pure depth)

/-- A display-path token as the specification describes it: a mapping
field name or a sequence index. -/
inductive PathTok where
  | field (name : String)
  | idx (i : Nat)

/-- The string the flattener actually appends for a token. -/
def tokStr : PathTok → String
  | .field name => name
  | .idx i => idxToken i

mutual

/-- Modelled from the spec: the pre-order, depth-first enumeration of the
scalars reachable in a tree, each paired with its token path (document
order for mapping entries, index order for sequence items).  The spec's
DocumentNode has no document-wrapper variant, so the wrapper contributes
nothing here. -/
def specScalars : Node → List (List PathTok × String)
  | .scalar value => [([], value)]
  | .sequence items => specScalarsItems items 0
  | .mapping entries => specScalarsEntries entries
  | .document _ => []

def specScalarsEntries : List (String × Node) → List (List PathTok × String)
  | [] => []
  | (key, value) :: rest =>
    (specScalars value).map (fun pr => (PathTok.field key :: pr.1, pr.2))
      ++ specScalarsEntries rest

def specScalarsItems : List Node → Nat → List (List PathTok × String)
  | [], _ => []
  | item :: rest, i =>
    (specScalars item).map (fun pr => (PathTok.idx i :: pr.1, pr.2))
      ++ specScalarsItems rest (i + 1)

end

mutual

/-- Number of scalar leaves of a tree. -/
def countScalars : Node → Nat
  | .scalar _ => 1
  | .sequence items => countScalarsItems items
  | .mapping entries => countScalarsEntries entries
  | .document _ => 0

def countScalarsEntries : List (String × Node) → Nat
  | [] => 0
  | (_, value) :: rest => countScalars value + countScalarsEntries rest

def countScalarsItems : List Node → Nat
  | [] => 0
  | item :: rest => countScalars item + countScalarsItems rest

end

mutual

/-- True when the tree contains no document-wrapper node, i.e. it is a
tree of the specification's DocumentNode model (Scalar / Sequence /
Mapping only). -/
def docFree : Node → Bool
  | .scalar _ => true
  | .sequence items => docFreeItems items
  | .mapping entries => docFreeEntries entries
  | .document _ => false

def docFreeEntries : List (String × Node) → Bool
  | [] => true
  | (_, value) :: rest => docFree value && docFreeEntries rest

def docFreeItems : List Node → Bool
  | [] => true
  | item :: rest => docFree item && docFreeItems rest

end

mutual

/-- The tree with every mapping entry whose key is in the auto-generated
set removed, at every nesting level. -/
def pruneNode : Node → Node
  | .scalar value => .scalar value
  | .sequence items => .sequence (pruneItems items)
  | .mapping entries => .mapping (pruneEntries entries)
  | .document content => .document content

def pruneEntries : List (String × Node) → List (String × Node)
  | [] => []
  | (key, value) :: rest =>
    if autoGenerated key then pruneEntries rest
    else (key, pruneNode value) :: pruneEntries rest

def pruneItems : List Node → List Node
  | [] => []
  | item :: rest => pruneNode item :: pruneItems rest

end

/-- The line emitted for one enumerated scalar when flattening starts
from the path prefix `path`. -/
def renderedLine (path : List String) (pr : List PathTok × String) : String :=
  renderPath (path ++ pr.1.map tokStr) ++ ": " ++ pr.2

/-- Unfolding equation of `walk` at a mapping node. -/
theorem walk_mapping (es : List (String × Node)) (path : List String)
    (p : Bool) (r : Int) :
    walk (Node.mapping es) path p r =
      if r == 0 then [renderPath path ++ ": <object>"]
      else walkEntries es path p (if r > 0 then r - 1 else r) := rfl

/-- Unfolding equation of `walk` at a sequence node. -/
theorem walk_sequence (items : List Node) (path : List String)
    (p : Bool) (r : Int) :
    walk (Node.sequence items) path p r =
      if r == 0 then [renderPath path ++ ": <array>"]
      else walkItems items 0 path p (if r > 0 then r - 1 else r) := rfl

/-- Unfolding equation of `walk` at a scalar node. -/
theorem walk_scalar (value : String) (path : List String)
    (p : Bool) (r : Int) :
    walk (Node.scalar value) path p r = [renderPath path ++ ": " ++ value] := rfl

/-- Unfolding equation of the mapping loop on a cons cell. -/
theorem walkEntries_cons (key : String) (value : Node)
    (rest : List (String × Node)) (path : List String) (p : Bool) (r : Int) :
    walkEntries ((key, value) :: rest) path p r =
      (if p && autoGenerated key then []
       else walk value (path ++ [key]) p r) ++ walkEntries rest path p r := rfl

/-- Unfolding equation of the sequence loop on a cons cell. -/
theorem walkItems_cons (item : Node) (rest : List Node) (i : Nat)
    (path : List String) (p : Bool) (r : Int) :
    walkItems (item :: rest) i path p r =
      walk item (path ++ [idxToken i]) p r
        ++ walkItems rest (i + 1) path p r := rfl

/-- Appending a token to a nonempty path inserts exactly one dot. -/
theorem renderPath_append_cons (a : String) (rest : List String) (t : String) :
    renderPath ((a :: rest) ++ [t]) = renderPath (a :: rest) ++ "." ++ t := by
  match rest with
  | [] => rfl
  | b :: rest2 =>
    show a ++ "." ++ renderPath ((b :: rest2) ++ [t])
        = (a ++ "." ++ renderPath (b :: rest2)) ++ "." ++ t
    rw [renderPath_append_cons b rest2 t]
    simp [String.append_assoc]

mutual

/-- With pruning off and an unlimited depth budget, the flattener emits
exactly the rendered pre-order scalar enumeration. -/
theorem walkUnb : (node : Node) → (path : List String) →
    docFree node = true →
    walk node path false (-1) = (specScalars node).map (renderedLine path)
  | .scalar value, path, _ => by
    simp [walk, specScalars, renderedLine, tokStr]
  | .document c, _, h => by simp [docFree] at h
  | .mapping es, path, h => by
    show walkEntries es path false (-1)
        = (specScalarsEntries es).map (renderedLine path)
    exact walkEntriesUnb es path h
  | .sequence items, path, h => by
    show walkItems items 0 path false (-1)
        = (specScalarsItems items 0).map (renderedLine path)
    exact walkItemsUnb items 0 path h

theorem walkEntriesUnb : (es : List (String × Node)) → (path : List String) →
    docFreeEntries es = true →
    walkEntries es path false (-1)
      = (specScalarsEntries es).map (renderedLine path)
  | [], _, _ => rfl
  | (key, value) :: rest, path, h => by
    simp only [docFreeEntries, Bool.and_eq_true] at h
    show walk value (path ++ [key]) false (-1)
          ++ walkEntries rest path false (-1)
        = ((specScalars value).map
            (fun pr => (PathTok.field key :: pr.1, pr.2))
            ++ specScalarsEntries rest).map (renderedLine path)
    rw [walkUnb value (path ++ [key]) h.1, walkEntriesUnb rest path h.2,
      List.map_append, List.map_map]
    have hf : (renderedLine path ∘ fun pr => (PathTok.field key :: pr.1, pr.2))
        = renderedLine (path ++ [key]) := by
      funext pr
      simp only [Function.comp_apply, renderedLine, tokStr, List.map_cons]
      rw [List.append_cons, List.append_assoc]
    rw [hf]

theorem walkItemsUnb : (items : List Node) → (i : Nat) → (path : List String) →
    docFreeItems items = true →
    walkItems items i path false (-1)
      = (specScalarsItems items i).map (renderedLine path)
  | [], _, _, _ => rfl
  | item :: rest, i, path, h => by
    simp only [docFreeItems, Bool.and_eq_true] at h
    show walk item (path ++ [idxToken i]) false (-1)
          ++ walkItems rest (i + 1) path false (-1)
        = ((specScalars item).map
            (fun pr => (PathTok.idx i :: pr.1, pr.2))
            ++ specScalarsItems rest (i + 1)).map (renderedLine path)
    rw [walkUnb item (path ++ [idxToken i]) h.1,
      walkItemsUnb rest (i + 1) path h.2, List.map_append, List.map_map]
    have hf : (renderedLine path ∘ fun pr => (PathTok.idx i :: pr.1, pr.2))
        = renderedLine (path ++ [idxToken i]) := by
      funext pr
      simp only [Function.comp_apply, renderedLine, tokStr, List.map_cons]
      rw [List.append_cons, List.append_assoc]
    rw [hf]

end

mutual

/-- The pre-order enumeration has one element per scalar leaf. -/
theorem specScalarsLen : (node : Node) →
    (specScalars node).length = countScalars node
  | .scalar _ => rfl
  | .document _ => rfl
  | .mapping es => specScalarsEntriesLen es
  | .sequence items => specScalarsItemsLen items 0

theorem specScalarsEntriesLen : (es : List (String × Node)) →
    (specScalarsEntries es).length = countScalarsEntries es
  | [] => rfl
  | (key, value) :: rest => by
    show ((specScalars value).map
          (fun pr => (PathTok.field key :: pr.1, pr.2))
          ++ specScalarsEntries rest).length
        = countScalars value + countScalarsEntries rest
    rw [List.length_append, List.length_map, specScalarsLen value,
      specScalarsEntriesLen rest]

theorem specScalarsItemsLen : (items : List Node) → (i : Nat) →
    (specScalarsItems items i).length = countScalarsItems items
  | [], _ => rfl
  | item :: rest, i => by
    show ((specScalars item).map
          (fun pr => (PathTok.idx i :: pr.1, pr.2))
          ++ specScalarsItems rest (i + 1)).length
        = countScalars item + countScalarsItems rest
    rw [List.length_append, List.length_map, specScalarsLen item,
      specScalarsItemsLen rest (i + 1)]

end

mutual

/-- Flattening with the prune flag on coincides with flattening the
pruned tree with the flag off, for every depth budget. -/
theorem walkPrune : (node : Node) → (path : List String) → (r : Int) →
    walk node path true r = walk (pruneNode node) path false r
  | .scalar _, _, _ => rfl
  | .document _, _, _ => rfl
  | .mapping es, path, r => by
    have hp : pruneNode (.mapping es) = .mapping (pruneEntries es) := rfl
    rw [hp, walk_mapping, walk_mapping]
    cases hb : (r == 0) with
    | true => simp [hb]
    | false =>
      simp only [hb, Bool.false_eq_true, if_false]
      exact walkEntriesPrune es path (if r > 0 then r - 1 else r)
  | .sequence items, path, r => by
    have hp : pruneNode (.sequence items) = .sequence (pruneItems items) := rfl
    rw [hp, walk_sequence, walk_sequence]
    cases hb : (r == 0) with
    | true => simp [hb]
    | false =>
      simp only [hb, Bool.false_eq_true, if_false]
      exact walkItemsPrune items 0 path (if r > 0 then r - 1 else r)

theorem walkEntriesPrune : (es : List (String × Node)) →
    (path : List String) → (r : Int) →
    walkEntries es path true r = walkEntries (pruneEntries es) path false r
  | [], _, _ => rfl
  | (key, value) :: rest, path, r => by
    cases hk : autoGenerated key with
    | true =>
      have hp : pruneEntries ((key, value) :: rest) = pruneEntries rest := by
        simp [pruneEntries, hk]
      rw [hp, walkEntries_cons]
      simp only [hk, Bool.and_true, if_pos rfl, List.nil_append]
      exact walkEntriesPrune rest path r
    | false =>
      have hp : pruneEntries ((key, value) :: rest)
          = (key, pruneNode value) :: pruneEntries rest := by
        simp [pruneEntries, hk]
      rw [hp, walkEntries_cons, walkEntries_cons]
      simp only [hk, Bool.and_false, Bool.false_and, Bool.false_eq_true,
        if_false]
      rw [walkPrune value (path ++ [key]) r, walkEntriesPrune rest path r]

theorem walkItemsPrune : (items : List Node) → (i : Nat) →
    (path : List String) → (r : Int) →
    walkItems items i path true r = walkItems (pruneItems items) i path false r
  | [], _, _, _ => rfl
  | item :: rest, i, path, r => by
    show walk item (path ++ [idxToken i]) true r
          ++ walkItems rest (i + 1) path true r
        = walk (pruneNode item) (path ++ [idxToken i]) false r
          ++ walkItems (pruneItems rest) (i + 1) path false r
    rw [walkPrune item (path ++ [idxToken i]) r,
      walkItemsPrune rest (i + 1) path r]

end

/-- A small document-free sample tree used as a concrete instance. -/
def sampleTree : Node :=
  .mapping [("metadata", .mapping [("name", .scalar "demo")]),
            ("spec", .sequence [.scalar "a", .scalar "b"])]

/-- The tree of the spec's concrete scenario:
spec.containers = [{name: nginx, image: nginx:latest}]. -/
def nginxRoot : Node :=
  .mapping [("spec", .mapping [("containers", .sequence
    [.mapping [("name", .scalar "nginx"),
               ("image", .scalar "nginx:latest")]])])]

/-- The subtree at spec.containers of `nginxRoot`. -/
def containersNode : Node :=
  .sequence [.mapping [("name", .scalar "nginx"),
                       ("image", .scalar "nginx:latest")]]

/-- Claim C1: flattening an acyclic DocumentNode tree with unlimited
depth and no pruning emits exactly one line per reachable scalar, in
strict pre-order depth-first order (document order for mapping entries,
index order for sequence items), and zero lines for empty mappings and
empty sequences. -/
theorem claim1_flatten_unbounded_preorder (T : Node) (path : List String)
    (h : docFree T = true) :
    walk T path false (-1) = (specScalars T).map (renderedLine path) ∧
    (walk T path false (-1)).length = countScalars T ∧
    walk (Node.mapping []) path false (-1) = [] ∧
    walk (Node.sequence []) path false (-1) = [] := by
  refine ⟨walkUnb T path h, ?_, rfl, rfl⟩
  rw [walkUnb T path h, List.length_map, specScalarsLen T]

/-- Witness for C1 at a concrete document-free tree. -/
theorem claim1_witness :
    docFree sampleTree = true ∧
    (walk sampleTree [] false (-1)
        = (specScalars sampleTree).map (renderedLine []) ∧
      (walk sampleTree [] false (-1)).length = countScalars sampleTree ∧
      walk (Node.mapping []) [] false (-1) = [] ∧
      walk (Node.sequence []) [] false (-1) = []) :=
  ⟨by decide, claim1_flatten_unbounded_preorder sampleTree [] (by decide)⟩

/-- Claim C2 counterexample: for the scenario tree, func main's
navigate-then-flatten path does not produce the two claimed lines: the
navigator is applied to the document wrapper node, where the very first
field lookup fails, so the run reports an invalid-format error and emits
nothing. -/
theorem claim2_counterexample :
    runMain [nginxRoot] "spec.containers" false (-1)
        = .error (.invalidFormat "spec.containers") ∧
    runMain [nginxRoot] "spec.containers" false (-1)
        ≠ .ok ["[0].name: nginx", "[0].image: nginx:latest"] := by
  refine ⟨rfl, ?_⟩
  intro hcontra
  rw [show runMain [nginxRoot] "spec.containers" false (-1)
      = .error (.invalidFormat "spec.containers") from rfl] at hcontra
  exact Except.noConfusion hcontra

/-- Claim C2 as amended: main's own composition fails (findNodeByPath
receives the document wrapper, whose kind is not a mapping, so the
lookup of "spec" errors and nothing is flattened); and even navigating
from the root mapping (as the sibling main.go variant does), the
flattener is seeded with the dot-split entry as its prefix and renders
index tokens with a dot plus backspace, producing
"spec.containers.\x08[0].name: nginx" and
"spec.containers.\x08[0].image: nginx:latest" in that order — never the
claimed empty-prefix lines. -/
theorem claim2_amended :
    runMain [nginxRoot] "spec.containers" false (-1)
        = .error (.invalidFormat "spec.containers") ∧
    findNodeByPath nginxRoot "spec.containers" = .ok containersNode ∧
    walk containersNode ["spec", "containers"] false (-1)
        = ["spec.containers.\x08[0].name: nginx",
           "spec.containers.\x08[0].image: nginx:latest"] :=
  ⟨rfl, rfl, by decide⟩

/-- Claim C3 counterexample: the emitted line for a scalar under
a.b[0].c has raw text "a.b.\x08[0].c: v" — the dot before the bracket is
present, followed by a backspace character — not the claimed
"a.b[0].c: v" with no other characters inserted. -/
theorem claim3_counterexample :
    walk (Node.mapping [("a", Node.mapping [("b", Node.sequence
        [Node.mapping [("c", Node.scalar "v")]])])]) [] false (-1)
      = ["a.b.\x08[0].c: v"] ∧
    ("a.b.\x08[0].c: v" : String) ≠ "a.b[0].c: v" := ⟨by decide, by decide⟩

/-- Claim C3 as amended: the display path joins every token — field
names and index tokens alike — with ".", the empty prefix renders as the
empty string, and an index segment's token is a backspace character
followed by "[i]", so the raw bytes between a field and a following
index read ".\x08[i]" (a terminal renders this as "a.b[0].c"). -/
theorem claim3_amended :
    renderPath [] = "" ∧
    (∀ t : String, renderPath [t] = t) ∧
    (∀ (a : String) (rest : List String) (t : String),
        renderPath ((a :: rest) ++ [t]) = renderPath (a :: rest) ++ "." ++ t) ∧
    (∀ i : Nat, idxToken i = "\x08[" ++ Nat.repr i ++ "]") ∧
    (∀ (item : Node) (path : List String),
        walk (Node.sequence [item]) path false (-1)
          = walk item (path ++ [idxToken 0]) false (-1)) := by
  refine ⟨rfl, fun t => rfl, renderPath_append_cons, fun i => rfl, ?_⟩
  intro item path
  show walk item (path ++ [idxToken 0]) false (-1)
        ++ walkItems [] 1 path false (-1)
      = walk item (path ++ [idxToken 0]) false (-1)
  rw [show walkItems [] 1 path false (-1) = [] from rfl, List.append_nil]

/-- Claim C4: a zero remaining-depth counter at a mapping or sequence
node emits exactly one placeholder line and stops; the counter
decrements by one per mapping/sequence level descended and never at a
scalar; depth 0 on a root mapping gives ": <object>" and depth 1 on
a mapping containing a nested mapping gives "a: <object>". -/
theorem claim4_depth_truncation (es : List (String × Node))
    (items : List Node) (v : String) (path : List String) (p : Bool)
    (r : Int) :
    walk (Node.mapping es) path p 0 = [renderPath path ++ ": <object>"] ∧
    walk (Node.sequence items) path p 0 = [renderPath path ++ ": <array>"] ∧
    walk (Node.scalar v) path p r = [renderPath path ++ ": " ++ v] ∧
    (r > 0 → walk (Node.mapping es) path p r = walkEntries es path p (r - 1)) ∧
    (r > 0 → walk (Node.sequence items) path p r
        = walkItems items 0 path p (r - 1)) ∧
    walk (Node.mapping es) [] p 0 = [": <object>"] ∧
    walk (Node.mapping [("a", Node.mapping [("b", Node.scalar "1")])])
        [] false 1 = ["a: <object>"] := by
  refine ⟨rfl, rfl, rfl, ?_, ?_, rfl, by decide⟩
  · intro hr
    rw [walk_mapping, if_neg (by simp; omega), if_pos hr]
  · intro hr
    rw [walk_sequence, if_neg (by simp; omega), if_pos hr]

/-- Witness for C4 discharging the positive-depth hypotheses at r = 2. -/
theorem claim4_witness :
    walk (Node.mapping [("k", Node.scalar "w")]) [] false 2
      = walkEntries [("k", Node.scalar "w")] [] false 1 ∧
    walk (Node.sequence [Node.scalar "w"]) [] false 2
      = walkItems [Node.scalar "w"] 0 [] false 1 :=
  ⟨(claim4_depth_truncation [("k", Node.scalar "w")] [Node.scalar "w"] "w"
      [] false 2).2.2.2.1 (by decide),
   (claim4_depth_truncation [("k", Node.scalar "w")] [Node.scalar "w"] "w"
      [] false 2).2.2.2.2.1 (by decide)⟩

/-- Claim C5: with the prune flag on, flattening coincides with
flattening the tree from which every auto-generated-keyed mapping entry
(including "status") has been removed at every nesting level; and an
entry keyed "status" is dropped before it can contribute any line, for
every remaining-depth budget. -/
theorem claim5_prune_depth_independent :
    (∀ (T : Node) (path : List String) (r : Int),
        walk T path true r = walk (pruneNode T) path false r) ∧
    (∀ (v : Node) (rest : List (String × Node)) (path : List String)
        (r : Int),
        walkEntries (("status", v) :: rest) path true r
          = walkEntries rest path true r) :=
  ⟨walkPrune, fun _ _ _ _ => rfl⟩

/-- Claim C6: at the failing inputs, path parsing does not reject the
malformed text with a typed error — "a[2" (unmatched bracket) hits a Go
slice-bounds runtime panic, "a[x]" (non-numeric index) silently
substitutes index 0 and resolves to element 0 — while an empty field
name between dots does return the invalid-format error. -/
theorem claim6_malformed_path_behavior :
    findNodeByPath (Node.mapping [("a", Node.sequence
        [Node.scalar "s0", Node.scalar "s1", Node.scalar "s2"])]) "a[2"
      = .error .goPanic ∧
    findNodeByPath (Node.mapping [("a", Node.sequence
        [Node.scalar "s0", Node.scalar "s1"])]) "a[x]"
      = .ok (Node.scalar "s0") ∧
    findNodeByPath (Node.mapping [("a", Node.mapping
        [("b", Node.scalar "1")])]) "a..b"
      = .error (.invalidFormat "a..b") := ⟨rfl, rfl, rfl⟩

/-- Claim C7 counterexample: navigating items[5] against a 2-element
sequence fails with an error that carries the index 5 and the field name
"items"; its message "index [5] out of range for items" nowhere contains
the valid bound 2. -/
theorem claim7_counterexample :
    findNodeByPath (Node.mapping [("items", Node.sequence
        [Node.scalar "x", Node.scalar "y"])]) "items[5]"
      = .error (.indexOutOfRange 5 "items") ∧
    errMsg (.indexOutOfRange 5 "items")
      = "index [5] out of range for items" ∧
    ("index [5] out of range for items").toList.contains '2' = false :=
  ⟨rfl, by decide, by decide⟩

/-- Claim C7 as amended: an index beyond the sequence bounds, or an
index applied to a non-sequence child, fails with the index-out-of-range
error reporting the offending index and the field name (not the valid
bound). -/
theorem claim7_amended :
    (∀ x y : Node,
        findNodeByPath (Node.mapping [("items", Node.sequence [x, y])])
          "items[5]" = .error (.indexOutOfRange 5 "items")) ∧
    (∀ v : String,
        findNodeByPath (Node.mapping [("items", Node.scalar v)])
          "items[0]" = .error (.indexOutOfRange 0 "items")) ∧
    errMsg (.indexOutOfRange 5 "items")
      = "index [5] out of range for items" :=
  ⟨fun x y => rfl, fun v => rfl, by decide⟩

/-- Claim C8: navigation is not panic-free — a negative bracket index
passes the upper-bound check and hits the Go index-out-of-range runtime
panic at Content[index], and an unmatched "[" hits the slice-bounds
panic while extracting the index text. -/
theorem claim8_navigation_panics :
    findNodeByPath (Node.mapping [("items", Node.sequence
        [Node.scalar "x"])]) "items[-1]" = .error .goPanic ∧
    findNodeByPath (Node.mapping [("items", Node.sequence
        [Node.scalar "x"])]) "items[0" = .error .goPanic := ⟨rfl, rfl⟩

/-- Claim C9 counterexample: findNodeByPath applied to the empty path
string is not the identity — the empty string splits into one empty
segment, whose lookup fails with an invalid-format error. -/
theorem claim9_counterexample :
    findNodeByPath (Node.mapping [("a", Node.scalar "x")]) ""
      = .error (.invalidFormat "") ∧
    findNodeByPath (Node.mapping [("a", Node.scalar "x")]) ""
      ≠ .ok (Node.mapping [("a", Node.scalar "x")]) := by
  refine ⟨rfl, ?_⟩
  intro hcontra
  rw [show findNodeByPath (Node.mapping [("a", Node.scalar "x")]) ""
      = .error (.invalidFormat "") from rfl] at hcontra
  exact Except.noConfusion hcontra

/-- Claim C9 as amended: func main special-cases the empty path — it
computes the empty segment sequence and flattens the root unchanged
without calling the navigator — whereas findNodeByPath itself, given the
empty string, splits it into a single empty segment and fails with an
invalid-format error on a mapping lacking an empty key. -/
theorem claim9_amended :
    entrySegments "" = [] ∧
    (∀ (root : Node) (rest : List Node) (p : Bool) (d : Int),
        runMain (root :: rest) "" p d = .ok (walk root [] p d)) ∧
    findNodeByPath (Node.mapping [("a", Node.scalar "x")]) ""
      = .error (.invalidFormat "") :=
  ⟨rfl, fun _ _ _ _ => rfl, rfl⟩

/-- Claim C10: the prune set is fixed to exactly the seven listed keys,
matched case-sensitively — "Status" and "STATUS" are not pruned and
their entries are flattened normally even with pruning on, and with
pruning off even a "status" entry is flattened normally. -/
theorem claim10_prune_set_exact :
    (∀ k : String, autoGenerated k = true ↔
      (k = "creationTimestamp" ∨ k = "resourceVersion" ∨ k = "generation" ∨
       k = "uid" ∨ k = "managedFields" ∨ k = "selfLink" ∨ k = "status")) ∧
    autoGenerated "Status" = false ∧
    autoGenerated "STATUS" = false ∧
    (∀ (v : Node) (rest : List (String × Node)) (path : List String)
        (r : Int),
        walkEntries (("Status", v) :: rest) path true r
          = walk v (path ++ ["Status"]) true r
            ++ walkEntries rest path true r) ∧
    (∀ (v : Node) (rest : List (String × Node)) (path : List String)
        (r : Int),
        walkEntries (("status", v) :: rest) path false r
          = walk v (path ++ ["status"]) false r
            ++ walkEntries rest path false r) := by
  refine ⟨?_, rfl, rfl, fun v rest path r => rfl, fun v rest path r => rfl⟩
  intro k
  simp [autoGenerated, Bool.or_eq_true, beq_iff_eq, or_assoc]

end KubectlWalk
